import Mathlib

/-!
Verification development for the semantic preference-learning engine of the
mcp-standards repository: significance gating (capture_hook_v2), pattern
extraction and classification, similarity-based deduplication with confidence
reinforcement, rate limiting, and the retrieval API (pattern_extractor_v2).

Embedding conventions: Python strings are lists of characters, floats are
rationals, asynchronous calls into the external similarity store are oracles
passed as function arguments, and exceptions caught at a call site are Except
values at that oracle boundary.  The regular-expression cascade of the
correction detector is embedded through a small backtracking matcher whose
semantics (leftmost match, alternatives in order, greedy quantifiers) follows
Python's re module on the constructs those patterns use.
-/

namespace MCPStandards

/-- Character list of a string literal. -/
def cs (s : String) : List Char := s.toList

/-- ASCII lowercasing of one character, as Python str.lower acts on ASCII. -/
def lowerChar (c : Char) : Char :=
  if 65 ≤ c.toNat ∧ c.toNat ≤ 90 then Char.ofNat (c.toNat + 32) else c

/-- Python str.lower on the ASCII fragment handled by this engine. -/
def lowerCS (s : List Char) : List Char := s.map lowerChar

/-- Does the text start with the given character sequence? -/
def leadsWith : List Char → List Char → Bool
  | _, [] => true
  | [], _ :: _ => false
  | a :: s, b :: p => a == b && leadsWith s p

/-- Python substring containment (`needle in hay`). -/
def containsSeq : List Char → List Char → Bool
  | [], p => leadsWith [] p
  | c :: rest, p => leadsWith (c :: rest) p || containsSeq rest p

/-! ## Rate limiter (PatternExtractorV2._check_rate_limit) -/

def MAX_PATTERNS_PER_MINUTE : Nat := 100

def RATE_LIMIT_WINDOW_SECONDS : ℚ := 60

/-- One call of `PatternExtractorV2._check_rate_limit`: timestamps older than
the 60-second window are discarded, the call is rejected when the cap is
already reached, and otherwise the current time is recorded. -/
def checkRateLimit (timestamps : List ℚ) (now : ℚ) : Bool × List ℚ :=
  let cutoff := now - RATE_LIMIT_WINDOW_SECONDS
  let kept := timestamps.filter (fun ts => cutoff < ts)
  if MAX_PATTERNS_PER_MINUTE ≤ kept.length then (false, kept)
  else (true, kept ++ [now])

/-- A sequence of extraction calls at the given times, threading the
rate-limiter timestamp state; returns the accept/reject verdicts. -/
def runRateLimit : List ℚ → List ℚ → List Bool × List ℚ
  | [], st => ([], st)
  | t :: ts, st =>
    let r := checkRateLimit st t
    let rest := runRateLimit ts r.2
    (r.1 :: rest.1, rest.2)

/-! ## Semantic categorizer (PatternExtractorV2._classify_tool_category) -/

/-- The SEMANTIC_CATEGORIES table, in its source (insertion) order. -/
def SEMANTIC_CATEGORIES : List (List Char × List (List Char)) :=
  [ (cs "package-management",
      [cs "pip", cs "uv", cs "npm", cs "yarn", cs "pnpm", cs "conda",
       cs "poetry", cs "package", cs "dependency", cs "install",
       cs "management"]),
    (cs "testing",
      [cs "test", cs "pytest", cs "unittest", cs "jest", cs "vitest",
       cs "spec", cs "testing", cs "coverage", cs "assertion", cs "mock"]),
    (cs "version-control",
      [cs "git", cs "commit", cs "branch", cs "merge", cs "pull", cs "push",
       cs "repository", cs "version", cs "control", cs "feature"]),
    (cs "code-quality",
      [cs "lint", cs "format", cs "style", cs "prettier", cs "eslint",
       cs "pylint", cs "quality", cs "convention", cs "standard",
       cs "check"]),
    (cs "build-tools",
      [cs "build", cs "compile", cs "bundle", cs "webpack", cs "vite",
       cs "rollup", cs "setup", cs "configure", cs "deploy",
       cs "production"]),
    (cs "documentation",
      [cs "docs", cs "readme", cs "documentation", cs "comment",
       cs "docstring", cs "guide", cs "manual", cs "wiki", cs "help"]) ]

/-- `PatternExtractorV2._classify_tool_category`: the two terms are joined
with a space and lowercased; the first category (in table order) one of whose
keywords occurs as a substring wins; no match falls back to general. -/
def classifyToolCategory (tool1 tool2 : List Char) : List Char :=
  let tools := lowerCS (tool1 ++ cs " " ++ tool2)
  match SEMANTIC_CATEGORIES.find? (fun ck => ck.2.any (fun kw => containsSeq tools kw)) with
  | some ck => ck.1
  | none => cs "general"

/-! ## Description sanitizer (PatternExtractorV2._sanitize_description) -/

/-- Python str.isprintable restricted to the ASCII range (plus the arrow that
the sanitizer's allowed class names); descriptions assembled by the extractor
templates stay inside this fragment. -/
def pyIsPrintableChar (c : Char) : Bool :=
  (32 ≤ c.toNat && c.toNat ≤ 126) || c == '→'

/-- Members of the regex class \s (ASCII). -/
def isSpaceChar (c : Char) : Bool :=
  c == ' ' || c == '\t' || c == '\n' || c == '\x0d' || c == '\x0c' || c == '\x0b'

/-- Members of the regex class \w (ASCII fragment). -/
def isWordChar (c : Char) : Bool :=
  (97 ≤ c.toNat && c.toNat ≤ 122) || (65 ≤ c.toNat && c.toNat ≤ 90) ||
  (48 ≤ c.toNat && c.toNat ≤ 57) || c == '_'

/-- One character of the sanitizer's allowed class
[a-zA-Z0-9\s\-_→.,:\x27"\/()]. -/
def allowedDescChar (c : Char) : Bool :=
  isWordChar c || isSpaceChar c || c == '-' || c == '→' || c == '.' ||
  c == ',' || c == ':' || c == '\x27' || c == '"' || c == '/' ||
  c == '(' || c == ')'

/-- Python str.strip (whitespace from both ends). -/
def pyStripWS (s : List Char) : List Char :=
  ((s.dropWhile (fun c => isSpaceChar c)).reverse.dropWhile
    (fun c => isSpaceChar c)).reverse

/-- `PatternExtractorV2._sanitize_description` with the default maximum
length 200: keep printable characters (plus newline and tab), drop carriage
returns and NULs, fall back to character-wise filtering when the whole string
is not inside the allowed class, then truncate and strip. -/
def sanitizeDescription (text : List Char) : List Char :=
  if text.isEmpty then []
  else
    let s1 := text.filter (fun c => pyIsPrintableChar c || c == '\n' || c == '\t')
    let s2 := s1.filter (fun c => !(c == '\x0d') && !(c == '\x00'))
    let s3 := if !s2.isEmpty && s2.all allowedDescChar then s2
              else s2.filter allowedDescChar
    pyStripWS (s3.take 200)

/-! ## Regular-expression interpreter

Backtracking matcher for the constructs used by CORRECTION_PATTERNS:
literals, the classes \w and \s, concatenation, ordered alternation, greedy
star/plus/option, and numbered capture groups.  Matching is fuelled; the fuel
passed by the entry points below is far larger than any possible number of
backtracking steps on the inputs of interest. -/

inductive RE where
  | lit : List Char → RE
  | wordc : RE
  | spacec : RE
  | cat : RE → RE → RE
  | alt : RE → RE → RE
  | star : RE → RE
  | grp : Nat → RE → RE
  | opt : RE → RE
deriving Repr

/-- Capture environment: latest binding of a group number wins. -/
abbrev Caps := List (Nat × List Char)

def getGroup (caps : Caps) (n : Nat) : Option (List Char) :=
  (caps.find? (fun p => p.1 == n)).map (fun p => p.2)

/-- Backtracking matcher in continuation style: alternatives are tried left
to right, quantifiers greedily, exactly as Python's re module orders its
search. -/
def mrun : Nat → RE → List Char → Caps →
    (List Char → Caps → Option (List Char × Caps)) → Option (List Char × Caps)
  | 0, _, _, _, _ => none
  | fuel + 1, r, s, caps, k =>
    match r with
    | .lit p => if leadsWith s p then k (s.drop p.length) caps else none
    | .wordc =>
      match s with
      | [] => none
      | a :: rest => if isWordChar a then k rest caps else none
    | .spacec =>
      match s with
      | [] => none
      | a :: rest => if isSpaceChar a then k rest caps else none
    | .cat r1 r2 => mrun fuel r1 s caps (fun s2 c2 => mrun fuel r2 s2 c2 k)
    | .alt r1 r2 =>
      match mrun fuel r1 s caps k with
      | some v => some v
      | none => mrun fuel r2 s caps k
    | .star r1 =>
      match mrun fuel r1 s caps (fun s2 c2 => mrun fuel (.star r1) s2 c2 k) with
      | some v => some v
      | none => k s caps
    | .grp n r1 =>
      mrun fuel r1 s caps (fun s2 c2 =>
        k s2 ((n, s.take (s.length - s2.length)) :: c2))
    | .opt r1 =>
      match mrun fuel r1 s caps k with
      | some v => some v
      | none => k s caps

/-- Fuel bound used for a text of the given length. -/
def reFuel (s : List Char) : Nat := 1000 + 20 * s.length

/-- re.search on a suffix: leftmost match, reported as (start offset,
matched text, captures). -/
def reSearchFrom (fuel : Nat) (r : RE) : List Char → Option (Nat × List Char × Caps)
  | [] =>
    (mrun fuel r [] [] (fun rest caps => some (rest, caps))).map
      (fun rc => (0, [], rc.2))
  | c :: tail =>
    match mrun fuel r (c :: tail) [] (fun rest caps => some (rest, caps)) with
    | some (rest, caps) =>
      some (0, (c :: tail).take ((c :: tail).length - rest.length), caps)
    | none => (reSearchFrom fuel r tail).map (fun x => (x.1 + 1, x.2))

/-- Python re.search: the matched text and captures of the leftmost match. -/
def reSearch (r : RE) (s : List Char) : Option (List Char × Caps) :=
  (reSearchFrom (reFuel s) r s).map (fun x => x.2)

/-- Is there a match at all (re.search used as a test)? -/
def reTest (r : RE) (s : List Char) : Bool := (reSearch r s).isSome

def reFindAllAux (fuel : Nat) (r : RE) : Nat → List Char → List (List Char × Caps)
  | 0, _ => []
  | steps + 1, s =>
    match reSearchFrom fuel r s with
    | none => []
    | some (i, m, caps) =>
      (m, caps) :: reFindAllAux fuel r steps (s.drop (i + max m.length 1))

/-- Python re.finditer: successive non-overlapping leftmost matches. -/
def reFinditer (r : RE) (s : List Char) : List (List Char × Caps) :=
  reFindAllAux (reFuel s) r (s.length + 1) s

/-! ### The correction-pattern cascade (PatternExtractorV2.CORRECTION_PATTERNS) -/

def reLit (s : String) : RE := RE.lit (cs s)

def reCats : List RE → RE
  | [] => RE.lit []
  | [r] => r
  | r :: rest => RE.cat r (reCats rest)

def reAlts : List RE → RE
  | [] => RE.lit []
  | [r] => r
  | r :: rest => RE.alt r (reAlts rest)

/-- \w+ -/
def wplus : RE := RE.cat RE.wordc (RE.star RE.wordc)

/-- \s+ -/
def splus : RE := RE.cat RE.spacec (RE.star RE.spacec)

/-- use\s+(\w+)\s+(?:not|instead\s+of)\s+(\w+) -/
def reUseNotInsteadOf : RE :=
  reCats [reLit "use", splus, .grp 1 wplus, splus,
          reAlts [reLit "not", reCats [reLit "instead", splus, reLit "of"]],
          splus, .grp 2 wplus]

/-- prefer\s+(\w+)\s+(?:over|to)\s+(\w+) -/
def rePreferOverTo : RE :=
  reCats [reLit "prefer", splus, .grp 1 wplus, splus,
          reAlts [reLit "over", reLit "to"], splus, .grp 2 wplus]

/-- (?:switch|change)\s+to\s+(\w+)\s+from\s+(\w+) -/
def reSwitchToFrom : RE :=
  reCats [reAlts [reLit "switch", reLit "change"], splus, reLit "to", splus,
          .grp 1 wplus, splus, reLit "from", splus, .grp 2 wplus]

/-- (?:switch|change)\s+from\s+(\w+)\s+to\s+(\w+) -/
def reSwitchFromTo : RE :=
  reCats [reAlts [reLit "switch", reLit "change"], splus, reLit "from", splus,
          .grp 1 wplus, splus, reLit "to", splus, .grp 2 wplus]

/-- always\s+use\s+(\w+) -/
def reAlwaysUse : RE :=
  reCats [reLit "always", splus, reLit "use", splus, .grp 1 wplus]

/-- never\s+use\s+(\w+) -/
def reNeverUse : RE :=
  reCats [reLit "never", splus, reLit "use", splus, .grp 1 wplus]

/-- use\s+(\w+)\s+for\s+(?:better|faster|improved) -/
def reUseForBetter : RE :=
  reCats [reLit "use", splus, .grp 1 wplus, splus, reLit "for", splus,
          reAlts [reLit "better", reLit "faster", reLit "improved"]]

/-- (\w+)\s+(?:instead\s+of|not)\s+(\w+) -/
def reGeneralInsteadNot : RE :=
  reCats [.grp 1 wplus, splus,
          reAlts [reCats [reLit "instead", splus, reLit "of"], reLit "not"],
          splus, .grp 2 wplus]

/-- The CORRECTION_PATTERNS list, in source order. -/
def CORRECTION_PATTERNS : List RE :=
  [ reCats [reLit "actually", splus,
            reAlts [reLit "use", reLit "do", reLit "need", reLit "should"]],
    reCats [reLit "instead", splus, reAlts [reLit "of", reLit "use"]],
    reUseNotInsteadOf,
    reCats [reLit "don\x27t", splus, reLit "use", splus, .grp 1 wplus],
    reCats [reLit "should", splus,
            reAlts [reLit "use", reLit "be", reLit "have"]],
    rePreferOverTo,
    reCats [reAlts [reLit "switch", reLit "change"], splus,
            reAlts [reLit "to", reLit "from"], splus, .grp 1 wplus,
            .opt (reCats [splus, reAlts [reLit "from", reLit "to"], splus,
                          .grp 2 wplus])],
    reCats [reAlts [reLit "always", reLit "never"], splus, reLit "use",
            splus, .grp 1 wplus],
    reCats [reAlts [reLit "fix", reLit "change", reLit "update"], splus,
            reAlts [reLit "to", reLit "from"]],
    reCats [reAlts [reLit "correct", reLit "right", reLit "better"], splus,
            reAlts [reLit "way", reLit "approach", reLit "method"]],
    reGeneralInsteadNot,
    reUseForBetter ]

/-! ## Data model -/

/-- The context dict attached at each ExtractedPattern construction site,
one constructor per site. -/
inductive PatternContext where
  | correction (preferred avoided : Option (List Char))
      (correction_text full_context : List Char)
  | workflowTest (tools : List (List Char))
  | workflowDoc (file_path : List Char)
  | toolPref (tool command : List Char)
  | projectCtx (tool : List Char) (usage_count : Nat)
      (project_path : List Char)
deriving Repr, DecidableEq

/-- The ExtractedPattern dataclass.  metadata is None until the storage loop
records the pattern id. -/
structure ExtractedPattern where
  pattern_type : List Char
  category : List Char
  description : List Char
  text_content : List Char
  confidence : ℚ
  context : PatternContext
  tool_name : List Char
  project_path : List Char := []
  metadata : Option (List (List Char × List Char)) := none
deriving Repr, DecidableEq

/-! ## External similarity-store boundary -/

/-- A nearest-neighbour request to the external similarity service. -/
structure SearchQuery where
  query : List Char
  top_k : Nat
  threshold : ℚ
  category : Option (List Char)
deriving Repr, DecidableEq

/-- One neighbour returned by the similarity service. -/
structure SimilarHit where
  pattern_id : List Char
  similarity : ℚ
deriving Repr, DecidableEq

/-- The service's search endpoint as an oracle; an exception raised by the
call is an `Except.error`. -/
abbrev SearchOracle := SearchQuery → Except (List Char) (List SimilarHit)

/-- The service's write endpoint (memory_router.store_pattern). -/
abbrev StoreOracle := ExtractedPattern → Except (List Char) (List Char)

/-- The arguments `_reinforce_existing_pattern` passes to the external
record_outcome call: confidence_before is the new candidate's confidence and
confidence_after adds the 0.1 step capped at 1.0. -/
structure ReinforceCall where
  pattern_id : List Char
  confidence_before : ℚ
  confidence_after : ℚ
deriving Repr, DecidableEq

/-- PatternExtractorV2._reinforce_existing_pattern (its outgoing call). -/
def reinforceExistingPattern (pattern_id : List Char)
    (new_pattern : ExtractedPattern) : ReinforceCall :=
  { pattern_id := pattern_id,
    confidence_before := new_pattern.confidence,
    confidence_after := min 1 (new_pattern.confidence + 1/10) }

/-- The query `_is_duplicate_pattern` sends: the candidate's text content,
top-k 3, threshold 0.8, scoped to the candidate's category. -/
def dupQuery (p : ExtractedPattern) : SearchQuery :=
  { query := p.text_content, top_k := 3, threshold := 8/10,
    category := some p.category }

/-- The loop body of `_is_duplicate_pattern`: the first returned neighbour
whose similarity is strictly above 0.9, in response order. -/
def firstCloseHit : List SimilarHit → Option SimilarHit
  | [] => none
  | h :: rest => if 9/10 < h.similarity then some h else firstCloseHit rest

/-- PatternExtractorV2._is_duplicate_pattern: search the service; reinforce
and answer true on the first neighbour above 0.9; answer false when no
neighbour is close enough or the call raised (the except branch). -/
def isDuplicatePattern (search : SearchOracle) (p : ExtractedPattern) :
    Bool × Option ReinforceCall :=
  match search (dupQuery p) with
  | .error _ => (false, none)
  | .ok hits =>
    match firstCloseHit hits with
    | some h => (true, some (reinforceExistingPattern h.pattern_id p))
    | none => (false, none)

/-- PatternExtractorV2._store_pattern_semantically: a raised exception is
caught and yields None. -/
def storePatternSemantically (store : StoreOracle) (p : ExtractedPattern) :
    Option (List Char) :=
  match store p with
  | .ok id => some id
  | .error _ => none

/-- The fate of one candidate pattern. -/
inductive Resolution where
  | reinforced (id : List Char)
  | inserted (id : List Char)
  | dropped
deriving Repr, DecidableEq

/-- The fate of one candidate: the duplicate check performed at its creation
site in the extractor, followed, for non-duplicates that the extractor kept,
by the storage step of extract_patterns. -/
def resolveCandidate (search : SearchOracle) (store : StoreOracle)
    (p : ExtractedPattern) : Resolution :=
  match isDuplicatePattern search p with
  | (true, some rc) => .reinforced rc.pattern_id
  | (true, none) => .dropped
  | (false, _) =>
    match storePatternSemantically store p with
    | some id => .inserted id
    | none => .dropped

/-! ## Python text plumbing -/

/-- Python str() of a flat string-valued dict, as the f-string building
combined_text renders the args map. -/
def pyStrD (args : List (List Char × List Char)) : List Char :=
  cs "\x7b" ++
  (List.intercalate (cs ", ")
    (args.map (fun kv =>
      cs "\x27" ++ kv.1 ++ cs "\x27: \x27" ++ kv.2 ++ cs "\x27"))) ++
  cs "\x7d"

/-- dict.get with a default. -/
def pyGet (args : List (List Char × List Char)) (k d : List Char) : List Char :=
  match args.find? (fun kv => kv.1 == k) with
  | some kv => kv.2
  | none => d

/-- How an f-string renders an optional tool name (str(None) = "None"). -/
def pyOptStr : Option (List Char) → List Char
  | some s => s
  | none => cs "None"

/-- ASCII uppercasing of one character, as Python str.upper acts on ASCII. -/
def upperChar (c : Char) : Char :=
  if 97 ≤ c.toNat ∧ c.toNat ≤ 122 then Char.ofNat (c.toNat - 32) else c

def upperCS (s : List Char) : List Char := s.map upperChar

/-- pathlib.Path(p).name on a plain slash-separated path: the text after the
last separator. -/
def pathName (p : List Char) : List Char :=
  p.foldl (fun acc c => if c == '/' then [] else acc ++ [c]) []

/-! ## Correction detector (PatternExtractorV2._detect_semantic_corrections) -/

/-- re.search returning the first and second capture group. -/
def searchG12 (r : RE) (s : List Char) :
    Option (Option (List Char) × Option (List Char)) :=
  (reSearch r s).map (fun m => (getGroup m.2 1, getGroup m.2 2))

/-- First hit of an if/elif chain. -/
def chainFirst : List (Option (Option (List Char) × Option (List Char))) →
    Option (List Char) × Option (List Char)
  | [] => (none, none)
  | some g :: _ => g
  | none :: rest => chainFirst rest

/-- The preferred/avoided extraction chain run on one matched span: the
if/elif cascade of _detect_semantic_corrections, in source order.
`ct` is the matched span, `broader` the lowercased full combined text, and
`command` the lowercased command argument. -/
def extractTools (ct broader command : List Char) :
    Option (List Char) × Option (List Char) :=
  chainFirst
    [ searchG12 reUseNotInsteadOf ct,
      searchG12 rePreferOverTo ct,
      searchG12 reSwitchToFrom ct,
      (searchG12 reSwitchFromTo ct).map (fun g => (g.2, g.1)),
      (searchG12 reAlwaysUse ct).map (fun g =>
        (g.1, (searchG12 reNeverUse broader).bind (fun h => h.1))),
      (searchG12 reNeverUse ct).map (fun g =>
        ((searchG12 reAlwaysUse broader).bind (fun h => h.1), g.1)),
      (searchG12 reUseForBetter ct).map (fun g =>
        (g.1,
         if containsSeq command (cs "pip") && !(g.1 == some (cs "pip")) then
           some (cs "pip")
         else if containsSeq command (cs "npm") && !(g.1 == some (cs "npm")) then
           some (cs "npm")
         else none)),
      searchG12 reGeneralInsteadNot ct ]

/-- The description template selection of _detect_semantic_corrections:
base description from the captured tools, then specialised by which keyword
appears in the matched span or the full result text. -/
def correctionDescription (pref avo : Option (List Char))
    (ct fullResult : List Char) : List Char :=
  let base :=
    match pref, avo with
    | some p, some a => cs "use " ++ p ++ cs " instead of " ++ a
    | some p, none => cs "prefer " ++ p
    | none, some a => cs "avoid " ++ a
    | none, none => cs "correction pattern detected"
  if containsSeq (lowerCS ct) (cs "prefer") then
    match avo with
    | some a => cs "prefer " ++ pyOptStr pref ++ cs " over " ++ a
    | none => base
  else if containsSeq (lowerCS ct) (cs "switch") then
    match avo with
    | some a => cs "switch to " ++ pyOptStr pref ++ cs " from " ++ a
    | none => base
  else if containsSeq fullResult (cs "actually") then
    match avo with
    | some a => cs "actually use " ++ pyOptStr pref ++ cs " not " ++ a
    | none => base
  else if containsSeq fullResult (cs "faster") ||
          containsSeq fullResult (cs "better") then
    match pref with
    | some p => cs "use " ++ p ++ cs " for better performance"
    | none => base
  else base

/-- The ExtractedPattern built for one correction detection: sanitized
description, raw description inside the searchable text, confidence 0.8. -/
def mkCorrectionPattern (tool_name : List Char) (pref avo : Option (List Char))
    (ct resultStr : List Char) : ExtractedPattern :=
  let category := classifyToolCategory (pref.getD []) (avo.getD [])
  let desc := correctionDescription pref avo ct (lowerCS resultStr)
  { pattern_type := cs "correction"
    category := category
    description := sanitizeDescription desc
    text_content := cs "correction: " ++ desc ++ cs " for " ++ category
    confidence := 8/10
    context := .correction pref avo ct resultStr
    tool_name := tool_name }

/-- The inner match loop of _detect_semantic_corrections: per matched span,
run the extraction chain; when a tool was captured, build the pattern, skip
it if its description was already accepted in this call or if the duplicate
oracle says it is stored already, and otherwise accept it. -/
def processCorrectionMatches (search : SearchOracle) (tool_name : List Char)
    (argsText resultStr command : List Char) :
    List (List Char × Caps) → List (List Char) →
    List ExtractedPattern × List (List Char)
  | [], seen => ([], seen)
  | m :: rest, seen =>
    let broader := lowerCS (argsText ++ cs " " ++ resultStr)
    let pa := extractTools m.1 broader command
    if pa.1.isSome || pa.2.isSome then
      let p := mkCorrectionPattern tool_name pa.1 pa.2 m.1 resultStr
      let desc := correctionDescription pa.1 pa.2 m.1 (lowerCS resultStr)
      if seen.contains desc then
        processCorrectionMatches search tool_name argsText resultStr command
          rest seen
      else if (isDuplicatePattern search p).1 then
        processCorrectionMatches search tool_name argsText resultStr command
          rest seen
      else
        let r := processCorrectionMatches search tool_name argsText resultStr
                   command rest (desc :: seen)
        (p :: r.1, r.2)
    else
      processCorrectionMatches search tool_name argsText resultStr command
        rest seen

/-- PatternExtractorV2._detect_semantic_corrections: every template of
CORRECTION_PATTERNS is scanned over the lowercased combined text, threading
the per-call seen-description set across templates. -/
def detectSemanticCorrections (search : SearchOracle) (tool_name : List Char)
    (args : List (List Char × List Char)) (resultStr : List Char) :
    List ExtractedPattern :=
  let argsText := pyStrD args
  let combined := lowerCS (argsText ++ cs " " ++ resultStr)
  let command := lowerCS (pyGet args (cs "command") [])
  (CORRECTION_PATTERNS.foldl
    (fun acc r =>
      let st := processCorrectionMatches search tool_name argsText resultStr
                  command (reFinditer r combined) acc.2
      (acc.1 ++ st.1, st.2))
    ([], [])).1

/-! ## The other three detectors -/

/-- _get_recent_tools_semantic returns the empty list in the source (the
tool-log integration is a stub). -/
def getRecentToolsSemantic : List (List Char) := []

/-- _get_project_tool_usage returns the empty dict in the source (the usage
statistics integration is a stub). -/
def getProjectToolUsage : List (List Char × Nat) := []

/-- PatternExtractorV2._detect_workflow_patterns. -/
def detectWorkflowPatterns (search : SearchOracle) (tool_name : List Char)
    (args : List (List Char × List Char)) (project_path : List Char) :
    List ExtractedPattern :=
  let recent := getRecentToolsSemantic
  let first :=
    if leadsWith tool_name (cs "Bash") &&
       [cs "test", cs "pytest", cs "jest", cs "spec"].any
         (fun w => containsSeq (lowerCS (pyStrD args)) w) &&
       recent.any (fun t => leadsWith t (cs "Edit") || leadsWith t (cs "Write"))
    then
      let p : ExtractedPattern :=
        { pattern_type := cs "workflow"
          category := cs "testing"
          description := cs "run tests after code changes"
          text_content :=
            cs "workflow: run tests after code changes for quality assurance"
          confidence := 7/10
          context := .workflowTest
            ((recent.filter (fun t =>
               leadsWith t (cs "Edit") || leadsWith t (cs "Write"))) ++
             [tool_name])
          tool_name := tool_name
          project_path := project_path }
      if (isDuplicatePattern search p).1 then [] else [p]
    else []
  let file_path := pyGet args (cs "file_path") []
  let second :=
    if (tool_name == cs "Edit" || tool_name == cs "Write") &&
       [cs "README", cs "DOC", cs "GUIDE"].any
         (fun w => containsSeq (upperCS file_path) w) &&
       recent.any (fun t => containsSeq t (cs "src") || containsSeq t (cs "lib"))
    then
      let p : ExtractedPattern :=
        { pattern_type := cs "workflow"
          category := cs "documentation"
          description := cs "update documentation after feature changes"
          text_content :=
            cs "workflow: update documentation after implementing features for maintainability"
          confidence := 6/10
          context := .workflowDoc file_path
          tool_name := tool_name
          project_path := project_path }
      if (isDuplicatePattern search p).1 then [] else [p]
    else []
  first ++ second

/-- The body of the package-manager loop of _detect_tool_preferences: when
the tool word occurs in the command, build the low-confidence preference
candidate, dropping it when the duplicate oracle knows it already. -/
def toolPrefStep (search : SearchOracle) (tool_name command : List Char)
    (acc : List ExtractedPattern) (tw : List Char) : List ExtractedPattern :=
  if containsSeq (lowerCS command) tw then
    let category := classifyToolCategory tw []
    let p : ExtractedPattern :=
      { pattern_type := cs "tool_preference"
        category := category
        description := cs "use " ++ tw ++ cs " for " ++ category
        text_content := cs "tool preference: " ++ tw ++ cs " for " ++
          category ++ cs " package management"
        confidence := 1/2
        context := .toolPref tw command
        tool_name := tool_name }
    if (isDuplicatePattern search p).1 then acc else acc ++ [p]
  else acc

/-- PatternExtractorV2._detect_tool_preferences. -/
def detectToolPreferences (search : SearchOracle) (tool_name : List Char)
    (args : List (List Char × List Char)) : List ExtractedPattern :=
  if leadsWith tool_name (cs "Bash") then
    let command := pyGet args (cs "command") []
    if [cs "install", cs "add", cs "update", cs "upgrade"].any
         (fun w => containsSeq (lowerCS command) w) then
      [cs "uv", cs "pip", cs "npm", cs "yarn", cs "pnpm", cs "poetry",
       cs "conda"].foldl (toolPrefStep search tool_name command) []
    else []
  else []

/-- PatternExtractorV2._detect_contextual_patterns. -/
def detectContextualPatterns (search : SearchOracle) (tool_name : List Char)
    (project_path : List Char) : List ExtractedPattern :=
  if !project_path.isEmpty then
    getProjectToolUsage.foldl
      (fun acc tu =>
        if 3 ≤ tu.2 then
          let p : ExtractedPattern :=
            { pattern_type := cs "context"
              category := cs "project-specific"
              description := cs "use " ++ tu.1 ++ cs " in this project"
              text_content := cs "context: " ++ tu.1 ++
                cs " is preferred in project " ++ pathName project_path
              confidence := min (9/10) ((tu.2 : ℚ) / 10)
              context := .projectCtx tu.1 tu.2 project_path
              tool_name := tool_name
              project_path := project_path }
          if (isDuplicatePattern search p).1 then acc else acc ++ [p]
        else acc) []
  else []

/-! ## extract_patterns -/

/-- Tags naming the four detectors, used to record their invocation order. -/
inductive ExtractorTag where
  | correction
  | workflow
  | toolPreference
  | context
deriving Repr, DecidableEq

/-- The warning printed when the rate limit rejects a call. -/
def rateLimitWarning : List Char :=
  cs "Warning: Pattern extraction rate limit exceeded (100/min)"

/-- The storage loop of extract_patterns: candidates whose insert succeeds
are returned with their pattern_id recorded in metadata; failed inserts are
dropped from the result. -/
def storePhase (store : StoreOracle) : List ExtractedPattern → List ExtractedPattern
  | [] => []
  | p :: rest =>
    match storePatternSemantically store p with
    | some id =>
      { p with metadata := some [(cs "pattern_id", id)] } :: storePhase store rest
    | none => storePhase store rest

/-- PatternExtractorV2.extract_patterns: the rate-limit check, then the four
detectors in source order (steps 1-4), then the storage loop (step 5).
Returns the stored patterns, the detector invocation trace, the printed
warning when rate limited, and the successor rate-limiter state. -/
def extractPatterns (search : SearchOracle) (store : StoreOracle)
    (timestamps : List ℚ) (now : ℚ) (tool_name : List Char)
    (args : List (List Char × List Char)) (resultStr : List Char)
    (project_path : List Char) :
    List ExtractedPattern × List ExtractorTag × Option (List Char) × List ℚ :=
  let rl := checkRateLimit timestamps now
  if !rl.1 then ([], [], some rateLimitWarning, rl.2)
  else
    let c := detectSemanticCorrections search tool_name args resultStr
    let w := detectWorkflowPatterns search tool_name args project_path
    let t := detectToolPreferences search tool_name args
    let x := detectContextualPatterns search tool_name project_path
    (storePhase store (c ++ w ++ t ++ x),
     [.correction, .workflow, .toolPreference, .context], none, rl.2)

/-! ## Capture hook (HookCaptureSystemV2.capture_tool_execution) -/

/-- The observable outcome of one capture call: the returned status fields
plus whether the audit write and the extraction step ran. -/
structure CaptureResult where
  captured : Bool
  reason : Option (List Char)
  score : ℚ
  logged : Bool
  extraction_attempted : Bool
  patterns_found : Nat
deriving Repr, DecidableEq

/-- HookCaptureSystemV2.capture_tool_execution, parameterised by the
significance the scorer computed for the event and by the number of patterns
extraction would return.  Mirrors the gate structure of the source: below
0.3 nothing is stored and a low_significance result is returned; from 0.3 on
the event is written to the audit table; extraction (V2 or the V1 fallback)
runs only strictly above 0.6. -/
def captureToolExecution (significance : ℚ) (extractedCount : Nat) :
    CaptureResult :=
  if significance < 3/10 then
    { captured := false, reason := some (cs "low_significance"),
      score := significance, logged := false, extraction_attempted := false,
      patterns_found := 0 }
  else
    { captured := true, reason := none, score := significance, logged := true,
      extraction_attempted := decide (6/10 < significance),
      patterns_found := if 6/10 < significance then extractedCount else 0 }

/-! ## Retrieval API (PatternExtractorV2.get_learned_preferences) -/

/-- The metadata field of a pattern as the similarity service returns it:
either a dict (whose pattern_type entry may be absent) or a non-dict value. -/
inductive PyMeta where
  | dict (pattern_type : Option (List Char))
  | nonDict
deriving Repr, DecidableEq

/-- A pattern record as returned by the similarity service to the retrieval
API.  frequency is carried by the stored record; the retrieval code never
reads it. -/
structure RetrievedPattern where
  pattern_text : List Char
  confidence : ℚ
  frequency : Nat
  metadata : PyMeta
deriving Repr, DecidableEq

/-- The filter body of get_learned_preferences: dict metadata must carry
pattern_type correction or tool_preference; non-dict metadata falls back to
indicator words in the pattern text. -/
def isPreferencePattern (p : RetrievedPattern) : Bool :=
  match p.metadata with
  | .dict pt =>
    pt == some (cs "correction") || pt == some (cs "tool_preference")
  | .nonDict =>
    [cs "preference", cs "correction", cs "use", cs "prefer"].any
      (fun w => containsSeq (lowerCS p.pattern_text) w)

/-- The sort key order of get_learned_preferences: confidence descending. -/
def confGE (a b : RetrievedPattern) : Prop := b.confidence ≤ a.confidence

instance : DecidableRel confGE :=
  fun a b => inferInstanceAs (Decidable (b.confidence ≤ a.confidence))

instance : IsTotal RetrievedPattern confGE :=
  ⟨fun a b => le_total b.confidence a.confidence⟩

instance : IsTrans RetrievedPattern confGE :=
  ⟨fun _ _ _ h1 h2 => le_trans h2 h1⟩

/-- PatternExtractorV2.get_learned_preferences as a function of the list the
similarity service returned: filter to preference-type records, then the
stable sort by confidence descending that Python's sorted performs
(frequency is not consulted). -/
def getLearnedPreferences (resp : List RetrievedPattern) :
    List RetrievedPattern :=
  List.insertionSort confGE (resp.filter isPreferencePattern)

/-! ## Reinforcement on the stored side -/

/-- The durable form of a pattern held by the external similarity service. -/
structure StoredPattern where
  confidence : ℚ
  frequency : Nat
  last_seen : ℚ
deriving Repr, DecidableEq

/-- Modelled from the spec: record_outcome of the hybrid memory router
(module mcp_standards.memory.v2.test_hybrid_memory, which is not part of the
source tree here; only its callers are).  Per the spec, reinforcement
increases the stored entry's confidence by the fixed step 0.1 capped at 1.0,
increments its frequency, and refreshes its last-seen timestamp. -/
def recordOutcome (e : StoredPattern) (now : ℚ) : StoredPattern :=
  { confidence := min 1 (e.confidence + 1/10),
    frequency := e.frequency + 1,
    last_seen := now }

/-! ## Concrete oracles and inputs used to instantiate the theorems -/

/-- A similarity service holding no patterns yet. -/
def freshStoreSearch : SearchOracle := fun _ => .ok []

/-- A write endpoint that always succeeds. -/
def okIdStore : StoreOracle := fun _ => .ok (cs "new-id")

/-- A service returning one neighbour above the 0.9 duplicate threshold. -/
def hitHigh : SimilarHit := { pattern_id := cs "sp1", similarity := 95/100 }

def searchHigh : SearchOracle := fun _ => .ok [hitHigh]

/-- A service whose search call raises. -/
def searchFail : SearchOracle := fun _ => .error (cs "timeout")

/-- A write endpoint whose insert call raises. -/
def storeFail : StoreOracle := fun _ => .error (cs "store down")

/-- A concrete correction candidate. -/
def samplePattern : ExtractedPattern :=
  mkCorrectionPattern (cs "Bash") (some (cs "uv")) (some (cs "pip"))
    (cs "use uv not pip") (cs "Actually, use uv not pip")

/-- The scenario-1 event of the spec: argument map and result text. -/
def scenarioArgs : List (List Char × List Char) :=
  [(cs "command", cs "pip install requests")]

def scenarioResult : List Char := cs "Actually, use uv not pip"

/-- A retrieved record whose metadata is not a dict but whose text contains
the indicator word "use". -/
def rpNonDict : RetrievedPattern :=
  { pattern_text := cs "use uv for installs", confidence := 9/10,
    frequency := 7, metadata := .nonDict }

/-- Two correction records with equal confidence and increasing frequency. -/
def rpLowFreq : RetrievedPattern :=
  { pattern_text := cs "correction: a", confidence := 1/2, frequency := 1,
    metadata := .dict (some (cs "correction")) }

def rpHighFreq : RetrievedPattern :=
  { pattern_text := cs "correction: b", confidence := 1/2, frequency := 5,
    metadata := .dict (some (cs "correction")) }

/-- The dict-metadata pattern type of a retrieved record, if any. -/
def retrievedTypeOf (p : RetrievedPattern) : Option (List Char) :=
  match p.metadata with
  | .dict pt => pt
  | .nonDict => none

/-- The ordering the claim asserts for get_preferences: confidence
descending with frequency descending as tie-break. -/
def claimOrd (a b : RetrievedPattern) : Prop :=
  b.confidence < a.confidence ∨
  (a.confidence = b.confidence ∧ b.frequency ≤ a.frequency)

instance : DecidableRel claimOrd := fun a b =>
  inferInstanceAs (Decidable (b.confidence < a.confidence ∨
    (a.confidence = b.confidence ∧ b.frequency ≤ a.frequency)))

/-- The fixed category taxonomy of the data model. -/
def FIXED_TAXONOMY : List (List Char) :=
  [cs "package-management", cs "testing", cs "version-control",
   cs "code-quality", cs "build-tools", cs "documentation", cs "general"]

/-- The stored form of the scenario's correction pattern: the candidate with
its pattern id recorded by the storage loop. -/
def scenarioCorrectionStored : ExtractedPattern :=
  { samplePattern with metadata := some [(cs "pattern_id", cs "new-id")] }

/-! ## Helper lemmas -/

theorem lowerChar_idem (c : Char) : lowerChar (lowerChar c) = lowerChar c := by
  unfold lowerChar
  by_cases h : 65 ≤ c.toNat ∧ c.toNat ≤ 90
  · rw [if_pos h]
    have hv : (c.toNat + 32).isValidChar := Or.inl (by omega)
    have ht : (Char.ofNat (c.toNat + 32)).toNat = c.toNat + 32 := by
      unfold Char.ofNat
      rw [dif_pos hv]
      rfl
    rw [ht, if_neg (by omega)]
  · rw [if_neg h, if_neg h]

theorem lowerCS_append (a b : List Char) :
    lowerCS (a ++ b) = lowerCS a ++ lowerCS b := by
  simp [lowerCS]

theorem lowerCS_idem (s : List Char) : lowerCS (lowerCS s) = lowerCS s := by
  simp only [lowerCS, List.map_map]
  exact List.map_congr_left (fun c _ => lowerChar_idem c)

/-! ## Claim theorems -/

theorem firstCloseHit_isSome_iff (l : List SimilarHit) :
    (firstCloseHit l).isSome = true ↔ ∃ h ∈ l, 9/10 < h.similarity := by
  induction l with
  | nil => simp [firstCloseHit]
  | cons a t ih =>
    by_cases ha : (9:ℚ)/10 < a.similarity
    · simp [firstCloseHit, ha]
    · simp [firstCloseHit, ha, ih]

theorem isDuplicatePattern_error (search : SearchOracle)
    (p : ExtractedPattern) (e : List Char)
    (hs : search (dupQuery p) = .error e) :
    isDuplicatePattern search p = (false, none) := by
  unfold isDuplicatePattern
  rw [hs]

theorem isDuplicatePattern_ok (search : SearchOracle) (p : ExtractedPattern)
    (hits : List SimilarHit) (hs : search (dupQuery p) = .ok hits) :
    isDuplicatePattern search p =
      match firstCloseHit hits with
      | some h => (true, some (reinforceExistingPattern h.pattern_id p))
      | none => (false, none) := by
  unfold isDuplicatePattern
  rw [hs]

theorem resolveCandidate_dup (search : SearchOracle) (store : StoreOracle)
    (p : ExtractedPattern) (rc : ReinforceCall)
    (h : isDuplicatePattern search p = (true, some rc)) :
    resolveCandidate search store p = .reinforced rc.pattern_id := by
  unfold resolveCandidate
  rw [h]

theorem isDuplicatePattern_false_elim (search : SearchOracle)
    (p : ExtractedPattern) (hd : (isDuplicatePattern search p).1 = false)
    (store : StoreOracle) :
    resolveCandidate search store p =
      match storePatternSemantically store p with
      | some id => .inserted id
      | none => .dropped := by
  unfold resolveCandidate
  cases hp : isDuplicatePattern search p with
  | mk b rc =>
    rw [hp] at hd
    subst hd
    rfl

/-- C10: category classification is case-insensitive (classifying any two
terms equals classifying their lowercasings), membership is substring
containment of a keyword in the joined lowercased terms, and a term that is
not itself a taxonomy keyword is still assigned the category whose keyword
it contains: classify("contest", "") = "testing" via the substring "test". -/
theorem classify_case_insensitive_substring :
    (∀ a b : List Char,
      classifyToolCategory a b = classifyToolCategory (lowerCS a) (lowerCS b)) ∧
    classifyToolCategory (cs "contest") [] = cs "testing" ∧
    containsSeq (lowerCS (cs "contest" ++ cs " " ++ [])) (cs "test") = true := by
  refine ⟨fun a b => ?_, by decide, by decide⟩
  unfold classifyToolCategory
  have h : lowerCS (a ++ cs " " ++ b) =
      lowerCS (lowerCS a ++ cs " " ++ lowerCS b) := by
    rw [lowerCS_append, lowerCS_append, lowerCS_append, lowerCS_append,
        lowerCS_idem, lowerCS_idem]
  rw [h]

/-- C2: a valid reinforcement call on an existing stored pattern raises the
entry's confidence by the fixed +0.1 step capped at 1.0, increments its
frequency by exactly one, and never decreases confidence; the reinforcement
call the extractor sends likewise reports confidence_after =
min(1, confidence_before + 0.1) ≥ confidence_before. -/
theorem reinforcement_monotonic (e : StoredPattern) (now : ℚ)
    (hc : e.confidence ≤ 1) (pid : List Char) (q : ExtractedPattern)
    (hq : q.confidence ≤ 1) :
    ((recordOutcome e now).frequency = e.frequency + 1 ∧
     (recordOutcome e now).confidence = min 1 (e.confidence + 1/10) ∧
     e.confidence ≤ (recordOutcome e now).confidence) ∧
    ((reinforceExistingPattern pid q).confidence_after =
       min 1 ((reinforceExistingPattern pid q).confidence_before + 1/10) ∧
     (reinforceExistingPattern pid q).confidence_before ≤
       (reinforceExistingPattern pid q).confidence_after) := by
  constructor
  · refine ⟨rfl, rfl, le_min hc ?_⟩
    linarith
  · refine ⟨rfl, le_min hq ?_⟩
    show q.confidence ≤ q.confidence + 1/10
    linarith

/-- Witness for C2 at a concrete stored entry and candidate. -/
theorem reinforcement_monotonic_witness :
    (recordOutcome ⟨1/2, 3, 0⟩ 7).frequency = 4 ∧
    (recordOutcome ⟨1/2, 3, 0⟩ 7).confidence = 3/5 := by
  have h := reinforcement_monotonic ⟨1/2, 3, 0⟩ 7 (by norm_num)
    (cs "p1") { pattern_type := [], category := [], description := [],
                text_content := [], confidence := 1/2,
                context := .workflowDoc [], tool_name := [] } (by norm_num)
  refine ⟨h.1.1, ?_⟩
  rw [h.1.2.1]
  norm_num

/-- C4: events scoring below 0.3 are returned as not captured with reason
low_significance, with no audit write and no extraction; events scoring in
[0.3, 0.6] are logged but extraction is not attempted; extraction is
attempted exactly when the score is above 0.6. -/
theorem significance_gating (s : ℚ) (n : Nat) :
    (s < 3/10 →
      (captureToolExecution s n).captured = false ∧
      (captureToolExecution s n).reason = some (cs "low_significance") ∧
      (captureToolExecution s n).logged = false ∧
      (captureToolExecution s n).extraction_attempted = false) ∧
    (3/10 ≤ s → s ≤ 6/10 →
      (captureToolExecution s n).captured = true ∧
      (captureToolExecution s n).logged = true ∧
      (captureToolExecution s n).extraction_attempted = false) ∧
    ((captureToolExecution s n).extraction_attempted = true ↔ 6/10 < s) := by
  unfold captureToolExecution
  refine ⟨fun h1 => ?_, fun h2 h3 => ?_, ?_⟩
  · rw [if_pos h1]
    exact ⟨rfl, rfl, rfl, rfl⟩
  · rw [if_neg (not_lt.mpr h2)]
    refine ⟨rfl, rfl, ?_⟩
    simp [decide_eq_true_eq]
    linarith
  · by_cases h : s < 3/10
    · rw [if_pos h]
      simp only [Bool.false_eq_true, false_iff]
      intro hgt
      linarith
    · rw [if_neg h]
      simp [decide_eq_true_eq]

/-- Witness for C4 at scores 0.2, 0.5 and 0.7. -/
theorem significance_gating_witness :
    (captureToolExecution (2/10) 5).captured = false ∧
    (captureToolExecution (5/10) 5).logged = true ∧
    (captureToolExecution (5/10) 5).extraction_attempted = false ∧
    (captureToolExecution (7/10) 5).extraction_attempted = true := by
  refine ⟨((significance_gating (2/10) 5).1 (by norm_num)).1,
          ((significance_gating (5/10) 5).2.1 (by norm_num) (by norm_num)).2.1,
          ((significance_gating (5/10) 5).2.1 (by norm_num) (by norm_num)).2.2,
          ((significance_gating (7/10) 5).2.2).mpr (by norm_num)⟩

/-- C1: the duplicate check queries the similarity service for neighbours of
the candidate's text content scoped to its category with top-k 3 and search
threshold 0.8, the candidate counts as a duplicate (reinforced, not
inserted) exactly when some returned neighbour has similarity strictly above
0.9, and otherwise it is inserted as a new stored pattern. -/
theorem dedup_query_and_threshold (search : SearchOracle) (store : StoreOracle)
    (p : ExtractedPattern) :
    dupQuery p = { query := p.text_content, top_k := 3, threshold := 8/10,
                   category := some p.category } ∧
    ((isDuplicatePattern search p).1 = true ↔
      ∃ hits, search (dupQuery p) = .ok hits ∧
        ∃ h ∈ hits, 9/10 < h.similarity) ∧
    ((isDuplicatePattern search p).1 = true →
      ∃ id, resolveCandidate search store p = .reinforced id) ∧
    ((isDuplicatePattern search p).1 = false →
      ∀ id, store p = .ok id →
        resolveCandidate search store p = .inserted id) := by
  refine ⟨rfl, ?_, ?_, ?_⟩
  · cases hs : search (dupQuery p) with
    | error e => simp [isDuplicatePattern, hs]
    | ok hits =>
      cases hh : firstCloseHit hits with
      | none =>
        have hno : ¬ ∃ h ∈ hits, 9/10 < h.similarity := by
          rw [← firstCloseHit_isSome_iff]
          simp [hh]
        simp only [isDuplicatePattern, hs, hh]
        simp only [Bool.false_eq_true, false_iff]
        rintro ⟨hits2, heq, hex⟩
        rw [Except.ok.injEq] at heq
        exact hno (heq ▸ hex)
      | some h0 =>
        simp only [isDuplicatePattern, hs, hh, true_iff]
        exact ⟨hits, rfl, (firstCloseHit_isSome_iff hits).mp (by simp [hh])⟩
  · intro hd
    cases hs : search (dupQuery p) with
    | error e =>
      rw [isDuplicatePattern_error search p e hs] at hd
      simp at hd
    | ok hits =>
      rw [isDuplicatePattern_ok search p hits hs] at hd
      cases hh : firstCloseHit hits with
      | none =>
        rw [hh] at hd
        simp at hd
      | some h0 =>
        have heq : isDuplicatePattern search p =
            (true, some (reinforceExistingPattern h0.pattern_id p)) := by
          rw [isDuplicatePattern_ok search p hits hs, hh]
        exact ⟨_, resolveCandidate_dup search store p _ heq⟩
  · intro hd id hid
    rw [isDuplicatePattern_false_elim search p hd store]
    unfold storePatternSemantically
    rw [hid]

/-- Witness for C1: a high-similarity neighbour forces reinforcement, an
empty store forces insertion. -/
theorem dedup_query_witness :
    (isDuplicatePattern searchHigh samplePattern).1 = true ∧
    (∃ id, resolveCandidate searchHigh okIdStore samplePattern =
      .reinforced id) ∧
    resolveCandidate freshStoreSearch okIdStore samplePattern =
      .inserted (cs "new-id") := by
  have h910 : (9:ℚ)/10 < (95:ℚ)/100 := by norm_num
  have hdup : (isDuplicatePattern searchHigh samplePattern).1 = true := by
    simp [isDuplicatePattern, searchHigh, firstCloseHit, hitHigh, h910]
  exact ⟨hdup,
    (dedup_query_and_threshold searchHigh okIdStore samplePattern).2.2.1 hdup,
    (dedup_query_and_threshold freshStoreSearch okIdStore
      samplePattern).2.2.2 (by decide) (cs "new-id") rfl⟩

/-- C3: a failure of the similarity search makes the candidate count as not
a duplicate and proceed to insertion; a failure of the insert itself drops
the candidate (and a failing store drops every candidate from the stored
result list); neither failure escapes as an error. -/
theorem external_failure_policy (search : SearchOracle) (store : StoreOracle)
    (p : ExtractedPattern) (l : List ExtractedPattern) :
    (∀ e, search (dupQuery p) = .error e →
      (isDuplicatePattern search p).1 = false ∧
      (∀ id, store p = .ok id →
        resolveCandidate search store p = .inserted id)) ∧
    ((isDuplicatePattern search p).1 = false →
      ∀ e2, store p = .error e2 →
        resolveCandidate search store p = .dropped) ∧
    ((∀ q, ∃ e3, store q = .error e3) → storePhase store l = []) := by
  refine ⟨fun e hs => ?_, fun hd e2 h2 => ?_, fun hall => ?_⟩
  · have hfd : (isDuplicatePattern search p).1 = false := by
      unfold isDuplicatePattern
      rw [hs]
    refine ⟨hfd, fun id hid => ?_⟩
    rw [isDuplicatePattern_false_elim search p hfd store]
    unfold storePatternSemantically
    rw [hid]
  · rw [isDuplicatePattern_false_elim search p hd store]
    unfold storePatternSemantically
    rw [h2]
  · induction l with
    | nil => rfl
    | cons a t ih =>
      obtain ⟨e3, he3⟩ := hall a
      unfold storePhase storePatternSemantically
      rw [he3]
      exact ih

/-- Witness for C3: a raising search still inserts, a raising store drops. -/
theorem external_failure_witness :
    (isDuplicatePattern searchFail samplePattern).1 = false ∧
    resolveCandidate searchFail okIdStore samplePattern =
      .inserted (cs "new-id") ∧
    resolveCandidate searchFail storeFail samplePattern = .dropped ∧
    storePhase storeFail [samplePattern] = [] := by
  refine ⟨((external_failure_policy searchFail okIdStore samplePattern
      []).1 (cs "timeout") rfl).1,
    ((external_failure_policy searchFail okIdStore samplePattern []).1
      (cs "timeout") rfl).2 (cs "new-id") rfl,
    (external_failure_policy searchFail storeFail samplePattern []).2.1
      (by decide) (cs "store down") rfl,
    (external_failure_policy searchFail storeFail samplePattern
      [samplePattern]).2.2 (fun q => ⟨cs "store down", rfl⟩)⟩

/-! ## Rate-limiter lemmas -/

theorem runRateLimit_cons (t : ℚ) (ts st : List ℚ) :
    runRateLimit (t :: ts) st =
      ((checkRateLimit st t).1 :: (runRateLimit ts (checkRateLimit st t).2).1,
       (runRateLimit ts (checkRateLimit st t).2).2) := rfl

/-- When every recorded timestamp is inside the window of the current call,
the cleanup step removes nothing. -/
theorem checkRateLimit_keep (st : List ℚ) (now : ℚ)
    (hall : ∀ x ∈ st, now - x < 60) :
    checkRateLimit st now =
      if 100 ≤ st.length then (false, st) else (true, st ++ [now]) := by
  unfold checkRateLimit
  have hk : st.filter (fun ts => now - RATE_LIMIT_WINDOW_SECONDS < ts) = st := by
    apply List.filter_eq_self.mpr
    intro a ha
    have := hall a ha
    simp only [RATE_LIMIT_WINDOW_SECONDS, decide_eq_true_eq]
    linarith
  simp only [RATE_LIMIT_WINDOW_SECONDS, MAX_PATTERNS_PER_MINUTE] at hk ⊢
  rw [hk]

/-- If every call of a burst is accepted and all its timestamps lie within
one window, the state only ever grows, so the burst cannot exceed the cap. -/
theorem runRateLimit_all_accepted (times : List ℚ) :
    ∀ st : List ℚ,
      (∀ x ∈ st, ∀ t ∈ times, t - x < 60) →
      (∀ x ∈ times, ∀ t ∈ times, t - x < 60) →
      ¬ false ∈ (runRateLimit times st).1 →
      times ≠ [] → st.length + times.length ≤ 100 := by
  induction times with
  | nil => intro st _ _ _ h; exact absurd rfl h
  | cons t ts ih =>
    intro st hst htt hacc _
    have hcrl := checkRateLimit_keep st t
      (fun x hx => hst x hx t (by simp))
    by_cases hlen : 100 ≤ st.length
    · exfalso
      apply hacc
      rw [runRateLimit_cons, hcrl, if_pos hlen]
      simp
    · have hv : checkRateLimit st t = (true, st ++ [t]) := by
        rw [hcrl, if_neg hlen]
      have hacc2 : ¬ false ∈ (runRateLimit ts (st ++ [t])).1 := by
        intro hf
        apply hacc
        rw [runRateLimit_cons, hv]
        simp [hf]
      cases ts with
      | nil =>
        simp only [List.length_cons, List.length_nil]
        omega
      | cons u us =>
        have hst2 : ∀ x ∈ st ++ [t], ∀ v ∈ u :: us, v - x < 60 := by
          intro x hx v hv2
          rcases List.mem_append.mp hx with hx1 | hx1
          · exact hst x hx1 v (List.mem_cons_of_mem t hv2)
          · rw [List.mem_singleton.mp hx1]
            exact htt t (by simp) v (List.mem_cons_of_mem t hv2)
        have htt2 : ∀ x ∈ u :: us, ∀ v ∈ u :: us, v - x < 60 := by
          intro x hx v hv2
          exact htt x (List.mem_cons_of_mem t hx) v (List.mem_cons_of_mem t hv2)
        have h2 := ih (st ++ [t]) hst2 htt2 hacc2 (by simp)
        simp only [List.length_append, List.length_cons,
          List.length_singleton] at h2 ⊢
        omega

/-- The cleaned state of a full window rejects the next call. -/
theorem checkRateLimit_full_state :
    checkRateLimit (List.replicate 100 (0:ℚ)) 0 =
      (false, List.replicate 100 (0:ℚ)) := by
  have h := checkRateLimit_keep (List.replicate 100 (0:ℚ)) 0
    (fun x hx => by rw [List.eq_of_mem_replicate hx]; norm_num)
  rw [h, if_pos (by simp)]

/-- C5 (amended): more than 100 extraction calls inside one 60-second window
force at least one rejection; a rejected call returns the empty result list
rather than an error, and the rejection is surfaced only as the printed
rate-limit warning (no structured RateLimited reason exists). -/
theorem rate_limit_rejection (times : List ℚ)
    (hlen : 100 < times.length)
    (hwin : ∀ x ∈ times, ∀ t ∈ times, t - x < 60) :
    false ∈ (runRateLimit times []).1 ∧
    ∀ (search : SearchOracle) (store : StoreOracle) (st : List ℚ) (now : ℚ)
      (tn : List Char) (args : List (List Char × List Char))
      (res pp : List Char),
      (checkRateLimit st now).1 = false →
      (extractPatterns search store st now tn args res pp).1 = [] ∧
      (extractPatterns search store st now tn args res pp).2.2.1 =
        some rateLimitWarning := by
  constructor
  · by_contra hacc
    have hne : times ≠ [] := by
      intro h
      rw [h] at hlen
      simp at hlen
    have hb := runRateLimit_all_accepted times [] (by simp) hwin hacc hne
    simp only [List.length_nil, Nat.zero_add] at hb
    omega
  · intro search store st now tn args res pp hrl
    constructor <;> simp [extractPatterns, hrl]

/-- Witness for C5: 101 calls at time zero, and the rejected call's
observable output. -/
theorem rate_limit_rejection_witness :
    false ∈ (runRateLimit (List.replicate 101 (0:ℚ)) []).1 ∧
    (extractPatterns freshStoreSearch okIdStore (List.replicate 100 (0:ℚ)) 0
      (cs "Bash") scenarioArgs scenarioResult []).1 = [] := by
  have hwin : ∀ x ∈ List.replicate 101 (0:ℚ),
      ∀ t ∈ List.replicate 101 (0:ℚ), t - x < 60 := by
    intro x hx t ht
    rw [List.eq_of_mem_replicate hx, List.eq_of_mem_replicate ht]
    norm_num
  have h := rate_limit_rejection (List.replicate 101 (0:ℚ)) (by simp) hwin
  exact ⟨h.1, (h.2 freshStoreSearch okIdStore (List.replicate 100 (0:ℚ)) 0
    (cs "Bash") scenarioArgs scenarioResult []
    (by rw [checkRateLimit_full_state])).1⟩

/-- C5 counterexample: at the rejected 101st call the engine returns the
empty list and surfaces only the fixed printed warning, which does not carry
a RateLimited reason. -/
theorem rate_limited_reason_counterexample :
    (checkRateLimit (List.replicate 100 (0:ℚ)) 0).1 = false ∧
    (extractPatterns freshStoreSearch okIdStore (List.replicate 100 (0:ℚ)) 0
       (cs "Bash") scenarioArgs scenarioResult []).2.2.1 =
      some rateLimitWarning ∧
    containsSeq rateLimitWarning (cs "RateLimited") = false ∧
    (extractPatterns freshStoreSearch okIdStore (List.replicate 100 (0:ℚ)) 0
       (cs "Bash") scenarioArgs scenarioResult []).2.2.1 ≠
      some (cs "RateLimited") := by
  have hrl : (checkRateLimit (List.replicate 100 (0:ℚ)) 0).1 = false := by
    rw [checkRateLimit_full_state]
  refine ⟨hrl, ?_, by decide, ?_⟩
  · simp only [extractPatterns, hrl, Bool.not_false, if_true]
  · simp only [extractPatterns, hrl, Bool.not_false, if_true, ne_eq,
      Option.some.injEq]
    decide

/-! ## Retrieval-API lemmas -/

theorem getLearnedPreferences_concrete :
    getLearnedPreferences [rpNonDict, rpLowFreq, rpHighFreq] =
      [rpNonDict, rpLowFreq, rpHighFreq] := by
  unfold getLearnedPreferences
  have hf : [rpNonDict, rpLowFreq, rpHighFreq].filter isPreferencePattern =
      [rpNonDict, rpLowFreq, rpHighFreq] :=
    List.filter_eq_self.mpr (by decide)
  rw [hf]
  have hLH : confGE rpLowFreq rpHighFreq := by
    simp [confGE, rpLowFreq, rpHighFreq]
  have hNL : confGE rpNonDict rpLowFreq := by
    simp [confGE, rpNonDict, rpLowFreq]
    norm_num
  simp [List.insertionSort, List.orderedInsert, hLH, hNL]

/-- C9 counterexample: on this concrete service response the listing keeps a
record carrying no correction/tool_preference pattern type, and the two
equal-confidence correction records come back in retrieval order with
ascending frequency — so the claimed type-purity and the claimed
confidence-then-frequency ordering both fail. -/
theorem get_preferences_counterexample :
    getLearnedPreferences [rpNonDict, rpLowFreq, rpHighFreq] =
      [rpNonDict, rpLowFreq, rpHighFreq] ∧
    retrievedTypeOf rpNonDict = none ∧
    rpLowFreq.confidence = rpHighFreq.confidence ∧
    rpLowFreq.frequency < rpHighFreq.frequency ∧
    ¬ List.Pairwise claimOrd
        (getLearnedPreferences [rpNonDict, rpLowFreq, rpHighFreq]) ∧
    ¬ (∀ p ∈ getLearnedPreferences [rpNonDict, rpLowFreq, rpHighFreq],
        retrievedTypeOf p = some (cs "correction") ∨
        retrievedTypeOf p = some (cs "tool_preference")) := by
  refine ⟨getLearnedPreferences_concrete, rfl, by norm_num [rpLowFreq, rpHighFreq],
    by norm_num [rpLowFreq, rpHighFreq], ?_, ?_⟩
  · rw [getLearnedPreferences_concrete]
    intro h
    have h2 := (List.pairwise_cons.mp ((List.pairwise_cons.mp h).2)).1
      rpHighFreq (by simp)
    rcases h2 with hlt | ⟨_, hfr⟩
    · norm_num [rpLowFreq, rpHighFreq] at hlt
    · norm_num [rpLowFreq, rpHighFreq] at hfr
  · rw [getLearnedPreferences_concrete]
    intro h
    have h2 := h rpNonDict (by simp)
    simp [retrievedTypeOf, rpNonDict] at h2

/-- C9 (amended): the preference listing returns exactly the retrieved
records passing the preference filter (dict metadata with pattern type
correction or tool_preference, or non-dict metadata whose text contains an
indicator word), sorted by confidence descending; ties keep retrieval order
and frequency is not consulted. -/
theorem get_preferences_filter_sorted (resp : List RetrievedPattern) :
    (∀ p ∈ getLearnedPreferences resp, isPreferencePattern p = true) ∧
    List.Sorted confGE (getLearnedPreferences resp) ∧
    (getLearnedPreferences resp).Perm (resp.filter isPreferencePattern) := by
  refine ⟨?_, List.sorted_insertionSort confGE _,
    List.perm_insertionSort confGE _⟩
  intro p hp
  have hm : p ∈ resp.filter isPreferencePattern :=
    (List.mem_insertionSort confGE).mp hp
  exact (List.mem_filter.mp hm).2

/-- Witness for C9 (amended) on a one-record response. -/
theorem get_preferences_filter_sorted_witness :
    isPreferencePattern rpLowFreq = true := by
  have hout : getLearnedPreferences [rpLowFreq] = [rpLowFreq] := by
    unfold getLearnedPreferences
    have hf : [rpLowFreq].filter isPreferencePattern = [rpLowFreq] :=
      List.filter_eq_self.mpr (by decide)
    rw [hf]
    rfl
  exact (get_preferences_filter_sorted [rpLowFreq]).1 rpLowFreq
    (by rw [hout]; simp)

/-! ## Extraction-pass ordering and the end-to-end scenario -/

/-- C7 counterexample: on the scenario event the detector invocation order
recorded by extract_patterns is correction, workflow, tool-preference,
context — not the claimed correction, tool-preference, workflow, context. -/
theorem extractor_order_counterexample :
    (extractPatterns freshStoreSearch okIdStore [] 0 (cs "Bash")
       scenarioArgs scenarioResult []).2.1 =
      [ExtractorTag.correction, ExtractorTag.workflow,
       ExtractorTag.toolPreference, ExtractorTag.context] ∧
    [ExtractorTag.correction, ExtractorTag.workflow,
     ExtractorTag.toolPreference, ExtractorTag.context] ≠
      [ExtractorTag.correction, ExtractorTag.toolPreference,
       ExtractorTag.workflow, ExtractorTag.context] := by
  exact ⟨rfl, by decide⟩

/-- C7 (amended): within every extraction pass that passes the rate limiter,
the four detectors run, and their candidates are concatenated and resolved,
in the fixed deterministic order correction, then workflow, then
tool-preference, then context. -/
theorem extractor_order (search : SearchOracle) (store : StoreOracle)
    (st : List ℚ) (now : ℚ) (tn : List Char)
    (args : List (List Char × List Char)) (res pp : List Char)
    (hrl : (checkRateLimit st now).1 = true) :
    (extractPatterns search store st now tn args res pp).2.1 =
      [.correction, .workflow, .toolPreference, .context] ∧
    (extractPatterns search store st now tn args res pp).1 =
      storePhase store
        (detectSemanticCorrections search tn args res ++
         detectWorkflowPatterns search tn args pp ++
         detectToolPreferences search tn args ++
         detectContextualPatterns search tn pp) := by
  constructor <;> simp [extractPatterns, hrl]

/-- Witness for C7 (amended) on the scenario event. -/
theorem extractor_order_witness :
    (extractPatterns freshStoreSearch okIdStore [] 0 (cs "Bash")
       scenarioArgs scenarioResult []).2.1 =
      [ExtractorTag.correction, ExtractorTag.workflow,
       ExtractorTag.toolPreference, ExtractorTag.context] :=
  (extractor_order freshStoreSearch okIdStore [] 0 (cs "Bash") scenarioArgs
    scenarioResult [] rfl).1

/-- C6: the scenario event (Bash, \x7bcommand: pip install requests\x7d,
"Actually, use uv not pip") yields exactly one correction-type pattern,
whose category is package-management, whose confidence is at least 0.8, and
whose description contains both "uv" and "pip". -/
theorem scenario_one_correction :
    (extractPatterns freshStoreSearch okIdStore [] 0 (cs "Bash")
        scenarioArgs scenarioResult []).1.filter
        (fun q => q.pattern_type == cs "correction") =
      [scenarioCorrectionStored] ∧
    scenarioCorrectionStored.pattern_type = cs "correction" ∧
    scenarioCorrectionStored.category = cs "package-management" ∧
    8/10 ≤ scenarioCorrectionStored.confidence ∧
    containsSeq scenarioCorrectionStored.description (cs "uv") = true ∧
    containsSeq scenarioCorrectionStored.description (cs "pip") = true := by
  exact ⟨rfl, rfl, rfl, le_refl _, rfl, rfl⟩

/-! ## Category-taxonomy invariant -/

theorem find_category_mem (f : List Char × List (List Char) → Bool) :
    (match SEMANTIC_CATEGORIES.find? f with
     | some ck => ck.1
     | none => cs "general") ∈ FIXED_TAXONOMY := by
  cases hf : SEMANTIC_CATEGORIES.find? f with
  | none => decide
  | some ck =>
    have hm := List.mem_of_find?_eq_some hf
    simp only [SEMANTIC_CATEGORIES, List.mem_cons, List.not_mem_nil,
      or_false] at hm
    rcases hm with h | h | h | h | h | h <;> subst h <;> decide

theorem classifyToolCategory_mem (a b : List Char) :
    classifyToolCategory a b ∈ FIXED_TAXONOMY :=
  find_category_mem _

theorem mkCorrectionPattern_category (tn : List Char)
    (pref avo : Option (List Char)) (ct res : List Char) :
    (mkCorrectionPattern tn pref avo ct res).category =
      classifyToolCategory (pref.getD []) (avo.getD []) := rfl

/-- Generic foldl invariant: if each step only keeps old elements or adds
elements satisfying P, the fold preserves P. -/
theorem foldl_mem_invariant {α σ β : Type} (P : β → Prop)
    (proj : σ → List β) (f : σ → α → σ)
    (hf : ∀ s x p, p ∈ proj (f s x) → p ∈ proj s ∨ P p) :
    ∀ (l : List α) (s : σ), (∀ p ∈ proj s, P p) → ∀ p ∈ proj (l.foldl f s), P p := by
  intro l
  induction l with
  | nil => intro s hs p hp; exact hs p hp
  | cons x xs ih =>
    intro s hs p hp
    refine ih (f s x) ?_ p hp
    intro q hq
    rcases hf s x q hq with h | h
    · exact hs q h
    · exact h

theorem processCorrectionMatches_shape (search : SearchOracle)
    (tool_name argsText resultStr command : List Char) :
    ∀ (ms : List (List Char × Caps)) (seen : List (List Char))
      (p : ExtractedPattern),
      p ∈ (processCorrectionMatches search tool_name argsText resultStr
            command ms seen).1 →
      ∃ pref avo ct, p = mkCorrectionPattern tool_name pref avo ct resultStr := by
  intro ms
  induction ms with
  | nil =>
    intro seen p hp
    simp [processCorrectionMatches] at hp
  | cons m rest ih =>
    intro seen p hp
    simp only [processCorrectionMatches] at hp
    split at hp
    · split at hp
      · exact ih seen p hp
      · split at hp
        · exact ih seen p hp
        · rcases List.mem_cons.mp hp with h | h
          · exact ⟨_, _, _, h⟩
          · exact ih _ p h
    · exact ih seen p hp

theorem detectSemanticCorrections_shape (search : SearchOracle)
    (tn : List Char) (args : List (List Char × List Char)) (res : List Char) :
    ∀ p ∈ detectSemanticCorrections search tn args res,
      ∃ pref avo ct, p = mkCorrectionPattern tn pref avo ct res := by
  intro p hp
  unfold detectSemanticCorrections at hp
  refine foldl_mem_invariant
    (fun q => ∃ pref avo ct, q = mkCorrectionPattern tn pref avo ct res)
    (fun s : List ExtractedPattern × List (List Char) => s.1) _
    ?_ CORRECTION_PATTERNS ([], []) (by simp) p hp
  intro s r q hq
  simp only [List.mem_append] at hq
  rcases hq with h | h
  · exact Or.inl h
  · exact Or.inr (processCorrectionMatches_shape search tn (pyStrD args) res
      (lowerCS (pyGet args (cs "command") [])) _ _ q h)

theorem detectWorkflowPatterns_nil (search : SearchOracle) (tn : List Char)
    (args : List (List Char × List Char)) (pp : List Char) :
    detectWorkflowPatterns search tn args pp = [] := by
  simp [detectWorkflowPatterns, getRecentToolsSemantic]

theorem detectContextualPatterns_nil (search : SearchOracle) (tn : List Char)
    (pp : List Char) :
    detectContextualPatterns search tn pp = [] := by
  simp [detectContextualPatterns, getProjectToolUsage]

theorem toolPrefStep_mem (search : SearchOracle) (tn command : List Char)
    (acc : List ExtractedPattern) (tw : List Char) (q : ExtractedPattern)
    (hq : q ∈ toolPrefStep search tn command acc tw) :
    q ∈ acc ∨ q.category ∈ FIXED_TAXONOMY := by
  simp only [toolPrefStep] at hq
  split at hq
  · split at hq
    · exact Or.inl hq
    · rcases List.mem_append.mp hq with h | h
      · exact Or.inl h
      · rw [List.mem_singleton.mp h]
        exact Or.inr (classifyToolCategory_mem tw [])
  · exact Or.inl hq

theorem detectToolPreferences_category (search : SearchOracle)
    (tn : List Char) (args : List (List Char × List Char)) :
    ∀ p ∈ detectToolPreferences search tn args,
      p.category ∈ FIXED_TAXONOMY := by
  intro p hp
  simp only [detectToolPreferences] at hp
  split at hp
  · split at hp
    · refine foldl_mem_invariant (fun q => q.category ∈ FIXED_TAXONOMY)
        (fun s : List ExtractedPattern => s)
        (toolPrefStep search tn (pyGet args (cs "command") []))
        ?_ _ [] (by simp) p hp
      intro s tw q hq
      exact toolPrefStep_mem search tn _ s tw q hq
    · simp at hp
  · simp at hp

/-- C8: every candidate pattern emitted by any of the four extractors
carries a category belonging to the fixed taxonomy package-management,
testing, version-control, code-quality, build-tools, documentation,
general. -/
theorem emitted_category_in_taxonomy (search : SearchOracle) (tn : List Char)
    (args : List (List Char × List Char)) (res pp : List Char)
    (p : ExtractedPattern)
    (hp : p ∈ detectSemanticCorrections search tn args res ++
          detectWorkflowPatterns search tn args pp ++
          detectToolPreferences search tn args ++
          detectContextualPatterns search tn pp) :
    p.category ∈ FIXED_TAXONOMY := by
  rcases List.mem_append.mp hp with h1 | h4
  · rcases List.mem_append.mp h1 with h2 | h3
    · rcases List.mem_append.mp h2 with ha | hb
      · obtain ⟨pref, avo, ct, hpe⟩ :=
          detectSemanticCorrections_shape search tn args res p ha
        rw [hpe, mkCorrectionPattern_category]
        exact classifyToolCategory_mem _ _
      · rw [detectWorkflowPatterns_nil] at hb
        simp at hb
    · exact detectToolPreferences_category search tn args p h3
  · rw [detectContextualPatterns_nil] at h4
    simp at h4

/-- Witness for C8: the scenario's correction candidate. -/
theorem emitted_category_in_taxonomy_witness :
    samplePattern.category ∈ FIXED_TAXONOMY := by
  refine emitted_category_in_taxonomy freshStoreSearch (cs "Bash")
    scenarioArgs scenarioResult [] samplePattern ?_
  have hc : detectSemanticCorrections freshStoreSearch (cs "Bash")
      scenarioArgs scenarioResult = [samplePattern] := rfl
  exact List.mem_append_left _ (List.mem_append_left _
    (List.mem_append_left _ (hc ▸ List.mem_singleton.mpr rfl)))

end MCPStandards
